import Mathlib

/-!
Verification of the `urlbox` Python client (`src/urlbox/urlbox_client.py`).

The client builds request URLs for the Urlbox rendering API from a mapping of
options, optionally signing GET requests with an HMAC-SHA1 token.  We embed the
client shallowly:

* the options mapping (a Python `dict` of string keys to stringly values) is an
  association list `Options` with dict-style update (`setKey` replaces the
  first occurrence in place, otherwise appends — Python dicts keep insertion
  order);
* the delegated URL validator (`validators.url`, an external collaborator) is a
  parameter `validUrl : String → Bool` of every operation;
* `urllib.parse.urlencode` is modelled by `urlencode` below, implementing the
  standard `application/x-www-form-urlencoded` percent-encoding (`quote_plus`);
* `hmac`/`hashlib.sha1` are modelled by a full executable SHA1 and HMAC over
  lists of byte values (`Nat`s below 256);
* network dispatch (`requests.get/head/post`) is modelled by returning the
  `Request` that would be issued; raising an exception is modelled by `Except`.
  Each operation returns the result together with the final state of the
  (mutated-in-place) options mapping.
-/

set_option autoImplicit false

deriving instance DecidableEq for Except

namespace Urlbox

/-- Options mapping: insertion-ordered association list of string keys to
(already stringified) values, modelling the Python `dict` the client mutates. -/
abbrev Options := List (String × String)

/-- Python `k in options`: the mapping has the key. -/
def hasKey (options : Options) (k : String) : Bool :=
  (options.lookup k).isSome

/-- Python `options[k] = v` on a dict: replace the value of the first (only)
occurrence of `k` in place, keeping its position; append when absent. -/
def setKey : Options → String → String → Options
  | [], k, v => [(k, v)]
  | (k', v') :: rest, k, v =>
    if k' = k then (k, v) :: rest else (k', v') :: setKey rest k v

/-- Characters removed by Python's `str.strip()`: the CPython ASCII
whitespace bitmap (`\x09`-`\x0D`, `\x1C`-`\x20`) together with the Unicode
whitespace code points of its character-type table (`\x85`, `\xA0`,
`\x1680`, `\x2000`-`\x200A`, `\x2028`, `\x2029`, `\x202F`, `\x205F`,
`\x3000`). -/
def isPySpace (c : Char) : Bool :=
  (9 ≤ c.toNat && c.toNat ≤ 13) || (28 ≤ c.toNat && c.toNat ≤ 32) ||
    c.toNat = 0x85 || c.toNat = 0xA0 || c.toNat = 0x1680 ||
    (0x2000 ≤ c.toNat && c.toNat ≤ 0x200A) || c.toNat = 0x2028 ||
    c.toNat = 0x2029 || c.toNat = 0x202F || c.toNat = 0x205F ||
    c.toNat = 0x3000

/-- Python `url.strip()`: remove surrounding whitespace. -/
def pyStrip (s : String) : String :=
  String.mk (((s.data.dropWhile isPySpace).reverse.dropWhile isPySpace).reverse)

/-- Python `s.startswith(pre)`. -/
def pyStartsWith (s pre : String) : Bool :=
  pre.data.isPrefixOf s.data

/-- Python `s.rstrip("\n")`: remove trailing newline characters. -/
def rstripNl (s : String) : String :=
  String.mk ((s.data.reverse.dropWhile (fun c => c = '\n')).reverse)

/-- UTF-8 encoding of one character, as byte values (models `str.encode`). -/
def utf8Bytes (c : Char) : List Nat :=
  let n := c.toNat
  if n < 0x80 then [n]
  else if n < 0x800 then [0xC0 + n / 0x40, 0x80 + n % 0x40]
  else if n < 0x10000 then
    [0xE0 + n / 0x1000, 0x80 + (n / 0x40) % 0x40, 0x80 + n % 0x40]
  else
    [0xF0 + n / 0x40000, 0x80 + (n / 0x1000) % 0x40, 0x80 + (n / 0x40) % 0x40,
      0x80 + n % 0x40]

/-- UTF-8 bytes of a string (models Python `str.encode(s)`). -/
def strBytes (s : String) : List Nat :=
  (s.data.map utf8Bytes).flatten

/-- Lowercase hexadecimal digit for a value below 16 (`'0'` out of range). -/
def hexLowerChar : Nat → Char
  | 0 => '0' | 1 => '1' | 2 => '2' | 3 => '3' | 4 => '4' | 5 => '5'
  | 6 => '6' | 7 => '7' | 8 => '8' | 9 => '9' | 10 => 'a' | 11 => 'b'
  | 12 => 'c' | 13 => 'd' | 14 => 'e' | 15 => 'f' | _ => '0'

/-- Uppercase hexadecimal digit for a value below 16 (`'0'` out of range). -/
def hexUpperChar : Nat → Char
  | 0 => '0' | 1 => '1' | 2 => '2' | 3 => '3' | 4 => '4' | 5 => '5'
  | 6 => '6' | 7 => '7' | 8 => '8' | 9 => '9' | 10 => 'A' | 11 => 'B'
  | 12 => 'C' | 13 => 'D' | 14 => 'E' | 15 => 'F' | _ => '0'

/-- Lowercase hex string of a list of byte values (models `.hexdigest()`). -/
def bytesToHex (bs : List Nat) : String :=
  String.mk ((bs.map (fun b => [hexLowerChar (b / 16), hexLowerChar (b % 16)])).flatten)

/-- Characters `urllib.parse.quote_plus` leaves unencoded: ASCII alphanumerics
and `_ . - ~`. -/
def isSafeChar (c : Char) : Bool :=
  (48 ≤ c.toNat && c.toNat ≤ 57) || (65 ≤ c.toNat && c.toNat ≤ 90) ||
    (97 ≤ c.toNat && c.toNat ≤ 122) || c = '_' || c = '.' || c = '-' || c = '~'

/-- Encoding of a single character under `quote_plus`: safe characters pass
through, space becomes `+`, everything else is percent-encoded byte by byte. -/
def quotePlusChar (c : Char) : String :=
  if isSafeChar c then String.singleton c
  else if c = ' ' then "+"
  else String.join ((utf8Bytes c).map
    (fun b => String.mk ['%', hexUpperChar (b / 16), hexUpperChar (b % 16)]))

/-- Python `urllib.parse.quote_plus`. -/
def quote_plus (s : String) : String :=
  String.join (s.data.map quotePlusChar)

/-- Joining of query-string components with `&`. -/
def joinAmp : List String → String
  | [] => ""
  | [x] => x
  | x :: xs => x ++ "&" ++ joinAmp xs

/-- Python `urllib.parse.urlencode(options)`: `k=v` pairs in mapping order,
keys and values `quote_plus`-encoded. -/
def urlencode (options : Options) : String :=
  joinAmp (options.map (fun kv => quote_plus kv.1 ++ "=" ++ quote_plus kv.2))

/-! SHA1 and HMAC, modelling the `hashlib.sha1` and `hmac` collaborators used
by `UrlboxClient._token`.  Bytes are `Nat`s below 256, words are `Nat`s below
2^32 with explicit `% 2^32` reductions. -/

/-- Left rotation of a 32-bit word (value below 2^32). -/
def rotl32 (x n : Nat) : Nat :=
  ((x <<< n) % 4294967296) ||| (x >>> (32 - n))

/-- Big-endian byte representation of a value in `n` bytes. -/
def toBytesBE (n v : Nat) : List Nat :=
  (List.range n).map (fun i => (v >>> (8 * (n - 1 - i))) % 256)

/-- SHA1 padding: append `0x80`, zero bytes up to 56 mod 64, then the 64-bit
big-endian bit length of the message. -/
def sha1Pad (msg : List Nat) : List Nat :=
  msg ++ [0x80] ++ List.replicate ((120 - (msg.length + 1) % 64) % 64) 0 ++
    toBytesBE 8 (msg.length * 8)

set_option linter.unusedVariables false in
/-- Splitting of a byte list into 64-byte chunks. -/
def chunks64 (l : List Nat) : List (List Nat) :=
  if h : l = [] then [] else l.take 64 :: chunks64 (l.drop 64)
termination_by l.length
decreasing_by
  simp only [List.length_drop]
  exact Nat.sub_lt (List.length_pos.mpr h) (by decide)

/-- Big-endian 32-bit words of a byte list (4 bytes per word). -/
def bytesToWordsBE : List Nat → List Nat
  | b0 :: b1 :: b2 :: b3 :: rest =>
    (((b0 * 256 + b1) * 256 + b2) * 256 + b3) :: bytesToWordsBE rest
  | _ => []

/-- Message-schedule extension: grow the 16 chunk words to 80. -/
def sha1ExtendFrom (w : Array Nat) (i : Nat) : Array Nat :=
  if i < 80 then
    sha1ExtendFrom
      (w.push (rotl32
        (w.getD (i - 3) 0 ^^^ w.getD (i - 8) 0 ^^^ w.getD (i - 14) 0 ^^^
          w.getD (i - 16) 0) 1)) (i + 1)
  else w
termination_by 80 - i
decreasing_by omega

/-- One SHA1 compression round. -/
def sha1Round (i wi : Nat) (st : Nat × Nat × Nat × Nat × Nat) :
    Nat × Nat × Nat × Nat × Nat :=
  let (a, b, c, d, e) := st
  let f :=
    if i < 20 then (b &&& c) ||| ((b ^^^ 0xFFFFFFFF) &&& d)
    else if i < 40 then b ^^^ c ^^^ d
    else if i < 60 then (b &&& c) ||| (b &&& d) ||| (c &&& d)
    else b ^^^ c ^^^ d
  let k :=
    if i < 20 then 0x5A827999
    else if i < 40 then 0x6ED9EBA1
    else if i < 60 then 0x8F1BBCDC
    else 0xCA62C1D6
  ((rotl32 a 5 + f + e + k + wi) % 4294967296, a, rotl32 b 30, c, d)

/-- Processing of one 64-byte chunk into the running hash state. -/
def sha1ProcessChunk (h : Nat × Nat × Nat × Nat × Nat) (chunk : List Nat) :
    Nat × Nat × Nat × Nat × Nat :=
  let w := sha1ExtendFrom (bytesToWordsBE chunk).toArray 16
  let (a, b, c, d, e) :=
    (List.range 80).foldl (fun st i => sha1Round i (w.getD i 0) st) h
  let (h0, h1, h2, h3, h4) := h
  ((h0 + a) % 4294967296, (h1 + b) % 4294967296, (h2 + c) % 4294967296,
    (h3 + d) % 4294967296, (h4 + e) % 4294967296)

/-- SHA1 digest (20 bytes) of a byte list, modelling `hashlib.sha1`. -/
def sha1Bytes (msg : List Nat) : List Nat :=
  let st := (chunks64 (sha1Pad msg)).foldl sha1ProcessChunk
    (0x67452301, 0xEFCDAB89, 0x98BADCFE, 0x10325476, 0xC3D2E1F0)
  toBytesBE 4 st.1 ++ toBytesBE 4 st.2.1 ++ toBytesBE 4 st.2.2.1 ++
    toBytesBE 4 st.2.2.2.1 ++ toBytesBE 4 st.2.2.2.2

/-- HMAC over SHA1 (block size 64), modelling `hmac.new(key, msg, sha1)`. -/
def hmacSha1 (key msg : List Nat) : List Nat :=
  let key0 := if 64 < key.length then sha1Bytes key else key
  let keyBlock := key0 ++ List.replicate (64 - key0.length) 0
  let opad := keyBlock.map (fun b => b ^^^ 0x5C)
  let ipad := keyBlock.map (fun b => b ^^^ 0x36)
  sha1Bytes (opad ++ sha1Bytes (ipad ++ msg))

/-- Lowercase hex digest of the HMAC-SHA1 of UTF-8 encoded key and message,
modelling `hmac.new(str.encode(key), str.encode(msg), sha1).hexdigest()`. -/
def hmacSha1Hex (key msg : String) : String :=
  bytesToHex (hmacSha1 (strBytes key) (strBytes msg))

/-! The client itself (`UrlboxClient` in `src/urlbox/urlbox_client.py`). -/

/-- Errors raised by the client, under the spec's names: `MissingTargetError`
(`KeyError` for a missing `url`/`html`), `InvalidUrlError`
(`InvalidUrlException`, carrying the offending URL), `MissingWebhookError`
(`KeyError` for a missing `webhook_url`) and `MissingCredentialError`
(missing `api_secret` on `post`). -/
inductive UrlboxError where
  | missingTarget
  | invalidUrl (url : String)
  | missingWebhook
  | missingCredential
deriving DecidableEq, Repr

/-- HTTP method of a dispatched request. -/
inductive HttpMethod where
  | get
  | head
  | post
deriving DecidableEq, Repr

/-- A request handed to the HTTP transport (`requests.get/head/post`): the
model of the client's single side effect. -/
structure Request where
  method : HttpMethod
  url : String
  headers : List (String × String)
  jsonBody : Option Options
deriving DecidableEq, Repr

/-- Result of `get`: either the composed URL string (`to_string=True`) or a
dispatched request. -/
inductive GetOutcome where
  | urlString (s : String)
  | request (r : Request)
deriving DecidableEq, Repr

/-- The client: immutable credentials plus the resolved base URL. -/
structure UrlboxClient where
  api_key : String
  api_secret : Option String
  base_api_url : String
deriving DecidableEq, Repr

/-- Value of `UrlboxClient.BASE_API_URL`. -/
def BASE_API_URL : String := "https://api.urlbox.io/v1/"

/-- Value of `UrlboxClient.POST_END_POINT`. -/
def POST_END_POINT : String := "render"

/-- Model of `UrlboxClient._init_base_api_url`. -/
def _init_base_api_url (api_host_name : Option String) : String :=
  match api_host_name with
  | none => BASE_API_URL
  | some h => "https://" ++ h ++ "/"

/-- Model of `UrlboxClient.__init__(api_key, api_secret=None,
api_host_name=None)`. -/
def UrlboxClient.make (api_key : String) (api_secret : Option String := none)
    (api_host_name : Option String := none) : UrlboxClient :=
  { api_key := api_key, api_secret := api_secret,
    base_api_url := _init_base_api_url api_host_name }

/-- Model of `UrlboxClient._prepend_schema`. -/
def _prepend_schema (url : String) : String :=
  if !pyStartsWith url "http" then "http://" ++ url else url

/-- Model of `UrlboxClient._token`; the secret is passed explicitly (in the
source it is `self.api_secret`, which is non-`None` whenever `_token` runs). -/
def _token (api_secret url_encoded_options : String) : String :=
  rstripNl (hmacSha1Hex api_secret url_encoded_options)

/-- The `if "url" in options:` block shared verbatim by `get`, `head` and
`post` (trim, `_prepend_schema`, store back, `_valid_url` check).  The
external validator is the parameter `validUrl`.  On `InvalidUrlException` the
error is returned together with the already-mutated options. -/
def validateUrlOpt (validUrl : String → Bool) (options : Options) :
    Except (UrlboxError × Options) Options :=
  match options.lookup "url" with
  | none => .ok options
  | some url =>
    let url_stripped := pyStrip url
    let url_parsed := _prepend_schema url_stripped
    let options1 := setKey options "url" url_parsed
    if validUrl url_parsed then .ok options1
    else .error (.invalidUrl url_parsed, options1)

/-- Model of `UrlboxClient.get(options, to_string=False)`.  Returns the
outcome (raised error, URL string, or dispatched GET request) together with
the final state of the options mapping. -/
def UrlboxClient.get (c : UrlboxClient) (validUrl : String → Bool)
    (options : Options) (to_string : Bool) :
    Except UrlboxError GetOutcome × Options :=
  if !hasKey options "html" && !hasKey options "url" then
    (.error .missingTarget, options)
  else
    match validateUrlOpt validUrl options with
    | .error (e, o) => (.error e, o)
    | .ok options1 =>
      let format := (options1.lookup "format").getD "png"
      let options2 := setKey options1 "format" format
      let url_encoded_options := urlencode options2
      if to_string then
        (.ok (.urlString
          (c.base_api_url ++ c.api_key ++ "/" ++ format ++ "?" ++
            url_encoded_options)), options2)
      else
        match c.api_secret with
        | none =>
          (.ok (.request ⟨.get,
            c.base_api_url ++ c.api_key ++ "/" ++ format ++ "?" ++
              url_encoded_options, [], none⟩), options2)
        | some s =>
          (.ok (.request ⟨.get,
            c.base_api_url ++ c.api_key ++ "/" ++ _token s url_encoded_options
              ++ "/" ++ format ++ "?" ++ url_encoded_options, [], none⟩),
            options2)

/-- Model of `UrlboxClient.head(options)`. -/
def UrlboxClient.head (c : UrlboxClient) (validUrl : String → Bool)
    (options : Options) : Except UrlboxError Request × Options :=
  if !hasKey options "html" && !hasKey options "url" then
    (.error .missingTarget, options)
  else
    match validateUrlOpt validUrl options with
    | .error (e, o) => (.error e, o)
    | .ok options1 =>
      let format := (options1.lookup "format").getD "png"
      let options2 := setKey options1 "format" format
      let url_encoded_options := urlencode options2
      (.ok ⟨.head,
        c.base_api_url ++ c.api_key ++ "/" ++ format ++ "?" ++
          url_encoded_options, [], none⟩, options2)

/-- Model of `UrlboxClient.post(options)`.  The JSON body
`json.loads(json.dumps(options))` is the options mapping itself (the round
trip is a no-op on string-valued mappings). -/
def UrlboxClient.post (c : UrlboxClient) (validUrl : String → Bool)
    (options : Options) : Except UrlboxError Request × Options :=
  if !hasKey options "html" && !hasKey options "url" then
    (.error .missingTarget, options)
  else if !hasKey options "webhook_url" then
    (.error .missingWebhook, options)
  else
    match c.api_secret with
    | none => (.error .missingCredential, options)
    | some s =>
      match validateUrlOpt validUrl options with
      | .error (e, o) => (.error e, o)
      | .ok options1 =>
        let format := (options1.lookup "format").getD "png"
        let options2 := setKey options1 "format" format
        (.ok ⟨.post, c.base_api_url ++ POST_END_POINT,
          [("Content-Type", "application/json"),
            ("Authorization", "Bearer " ++ s)], some options2⟩, options2)

/-! Supporting lemmas. -/

theorem lookup_setKey_self (o : Options) (k v : String) :
    (setKey o k v).lookup k = some v := by
  induction o with
  | nil => simp [setKey, List.lookup]
  | cons p rest ih =>
    obtain ⟨a, b⟩ := p
    by_cases ha : a = k
    · simp [setKey, ha, List.lookup]
    · have hka : (k == a) = false := beq_eq_false_iff_ne.mpr (Ne.symm ha)
      simp [setKey, ha, List.lookup, hka, ih]

theorem lookup_setKey_ne (o : Options) (k k' v : String) (h : k' ≠ k) :
    (setKey o k v).lookup k' = o.lookup k' := by
  induction o with
  | nil =>
    have hkk : (k' == k) = false := beq_eq_false_iff_ne.mpr h
    simp [setKey, List.lookup, hkk]
  | cons p rest ih =>
    obtain ⟨a, b⟩ := p
    by_cases ha : a = k
    · subst ha
      have hkk : (k' == a) = false := beq_eq_false_iff_ne.mpr h
      simp [setKey, List.lookup, hkk]
    · by_cases hk' : k' = a
      · have hka : (k' == a) = true := beq_iff_eq.mpr hk'
        simp [setKey, ha, List.lookup, hka]
      · have hka : (k' == a) = false := beq_eq_false_iff_ne.mpr hk'
        simp [setKey, ha, List.lookup, hka, ih]

theorem validateUrlOpt_none (validUrl : String → Bool) (options : Options)
    (hu : options.lookup "url" = none) :
    validateUrlOpt validUrl options = .ok options := by
  unfold validateUrlOpt
  rw [hu]

theorem validateUrlOpt_some (validUrl : String → Bool) (options : Options)
    (u : String) (hu : options.lookup "url" = some u) :
    validateUrlOpt validUrl options =
      (if validUrl (_prepend_schema (pyStrip u)) then
        .ok (setKey options "url" (_prepend_schema (pyStrip u)))
      else .error (.invalidUrl (_prepend_schema (pyStrip u)),
        setKey options "url" (_prepend_schema (pyStrip u)))) := by
  unfold validateUrlOpt
  rw [hu]

theorem validateUrlOpt_ok_lookup (validUrl : String → Bool)
    (options options1 : Options) (k : String)
    (h : validateUrlOpt validUrl options = .ok options1) (hk : k ≠ "url") :
    options1.lookup k = options.lookup k := by
  cases hu : options.lookup "url" with
  | none =>
    rw [validateUrlOpt_none validUrl options hu] at h
    cases h
    rfl
  | some u =>
    rw [validateUrlOpt_some validUrl options u hu] at h
    split at h
    · cases h
      exact lookup_setKey_ne options "url" k _ hk
    · cases h

theorem validateUrlOpt_ok_hasTarget (validUrl : String → Bool)
    (options options1 : Options)
    (h : validateUrlOpt validUrl options = .ok options1)
    (ht : (hasKey options "html" || hasKey options "url") = true) :
    (!hasKey options1 "html" && !hasKey options1 "url") = false := by
  have ht' : hasKey options "html" = true ∨ hasKey options "url" = true := by
    simpa using ht
  rcases ht' with hh | hu
  · have h1 : hasKey options1 "html" = true := by
      unfold hasKey
      rw [validateUrlOpt_ok_lookup validUrl options options1 "html" h
        (by decide)]
      exact hh
    rw [← Bool.not_or]
    simp [h1]
  · have h1 : hasKey options1 "url" = true := by
      unfold hasKey at hu ⊢
      cases hl : options.lookup "url" with
      | none => rw [hl] at hu; cases hu
      | some u =>
        rw [validateUrlOpt_some validUrl options u hl] at h
        split at h
        · cases h
          rw [lookup_setKey_self]
          rfl
        · cases h
    rw [← Bool.not_or]
    simp [h1]

theorem target_cond (o : Options)
    (h : (hasKey o "html" || hasKey o "url") = true) :
    (!hasKey o "html" && !hasKey o "url") = false := by
  rw [← Bool.not_or, h]
  rfl

theorem dropWhile_nl_eq_self (l : List Char) (h : ∀ c ∈ l, c ≠ '\n') :
    l.dropWhile (fun c => c = '\n') = l := by
  cases l with
  | nil => rfl
  | cons a t =>
    have ha : a ≠ '\n' := h a (List.mem_cons_self a t)
    simp [List.dropWhile_cons, ha]

theorem hexLowerChar_ne_nl (n : Nat) : hexLowerChar n ≠ '\n' := by
  match n with
  | 0 | 1 | 2 | 3 | 4 | 5 | 6 | 7 | 8 | 9 | 10 | 11 | 12 | 13 | 14 | 15 =>
    decide
  | (m + 16) =>
    have hm : hexLowerChar (m + 16) = '0' := rfl
    rw [hm]
    decide

theorem rstripNl_bytesToHex (bs : List Nat) :
    rstripNl (bytesToHex bs) = bytesToHex bs := by
  unfold rstripNl bytesToHex
  simp only
  congr 1
  rw [dropWhile_nl_eq_self, List.reverse_reverse]
  intro c hc
  rw [List.mem_reverse, List.mem_flatten] at hc
  obtain ⟨l, hl, hcl⟩ := hc
  rw [List.mem_map] at hl
  obtain ⟨b, _, rfl⟩ := hl
  simp only [List.mem_cons, List.mem_singleton] at hcl
  rcases hcl with rfl | rfl | hcl
  · exact hexLowerChar_ne_nl _
  · exact hexLowerChar_ne_nl _
  · cases hcl

theorem _token_eq_hmac (s q : String) :
    _token s q = bytesToHex (hmacSha1 (strBytes s) (strBytes q)) := by
  unfold _token hmacSha1Hex
  exact rstripNl_bytesToHex _

theorem hasTarget_of_not_cond (o : Options)
    (h : (!hasKey o "html" && !hasKey o "url") = false) :
    (hasKey o "html" || hasKey o "url") = true := by
  rcases h1 : hasKey o "html" <;> rcases h2 : hasKey o "url" <;> simp_all

/-- Reduction of `get` once the target check has passed. -/
theorem get_eq (c : UrlboxClient) (validUrl : String → Bool)
    (options : Options) (to_string : Bool)
    (ht : (hasKey options "html" || hasKey options "url") = true) :
    c.get validUrl options to_string =
      (match validateUrlOpt validUrl options with
      | .error (e, o) => (.error e, o)
      | .ok options1 =>
        let format := (options1.lookup "format").getD "png"
        let options2 := setKey options1 "format" format
        let url_encoded_options := urlencode options2
        if to_string then
          (.ok (.urlString
            (c.base_api_url ++ c.api_key ++ "/" ++ format ++ "?" ++
              url_encoded_options)), options2)
        else
          match c.api_secret with
          | none =>
            (.ok (.request ⟨.get,
              c.base_api_url ++ c.api_key ++ "/" ++ format ++ "?" ++
                url_encoded_options, [], none⟩), options2)
          | some s =>
            (.ok (.request ⟨.get,
              c.base_api_url ++ c.api_key ++ "/" ++
                _token s url_encoded_options ++ "/" ++ format ++ "?" ++
                url_encoded_options, [], none⟩), options2)) := by
  unfold UrlboxClient.get
  rw [target_cond options ht]
  rfl

/-- Reduction of `head` once the target check has passed. -/
theorem head_eq (c : UrlboxClient) (validUrl : String → Bool)
    (options : Options)
    (ht : (hasKey options "html" || hasKey options "url") = true) :
    c.head validUrl options =
      (match validateUrlOpt validUrl options with
      | .error (e, o) => (.error e, o)
      | .ok options1 =>
        let format := (options1.lookup "format").getD "png"
        let options2 := setKey options1 "format" format
        let url_encoded_options := urlencode options2
        (.ok ⟨.head,
          c.base_api_url ++ c.api_key ++ "/" ++ format ++ "?" ++
            url_encoded_options, [], none⟩, options2)) := by
  unfold UrlboxClient.head
  rw [target_cond options ht]
  rfl

/-- Reduction of `post` once the target and webhook checks have passed. -/
theorem post_eq (c : UrlboxClient) (validUrl : String → Bool)
    (options : Options)
    (ht : (hasKey options "html" || hasKey options "url") = true)
    (hw : hasKey options "webhook_url" = true) :
    c.post validUrl options =
      (match c.api_secret with
      | none => (.error .missingCredential, options)
      | some s =>
        match validateUrlOpt validUrl options with
        | .error (e, o) => (.error e, o)
        | .ok options1 =>
          let format := (options1.lookup "format").getD "png"
          let options2 := setKey options1 "format" format
          (.ok ⟨.post, c.base_api_url ++ POST_END_POINT,
            [("Content-Type", "application/json"),
              ("Authorization", "Bearer " ++ s)], some options2⟩,
            options2)) := by
  unfold UrlboxClient.post
  rw [target_cond options ht, hw]
  rfl

theorem validateUrlOpt_some_valid (validUrl : String → Bool)
    (options : Options) (u : String) (hu : options.lookup "url" = some u)
    (hvv : validUrl (_prepend_schema (pyStrip u)) = true) :
    validateUrlOpt validUrl options =
      .ok (setKey options "url" (_prepend_schema (pyStrip u))) := by
  rw [validateUrlOpt_some validUrl options u hu, hvv]
  rfl

theorem validateUrlOpt_some_invalid (validUrl : String → Bool)
    (options : Options) (u : String) (hu : options.lookup "url" = some u)
    (hvv : validUrl (_prepend_schema (pyStrip u)) = false) :
    validateUrlOpt validUrl options =
      .error (.invalidUrl (_prepend_schema (pyStrip u)),
        setKey options "url" (_prepend_schema (pyStrip u))) := by
  rw [validateUrlOpt_some validUrl options u hu, hvv]
  rfl

theorem hasTarget_of_url (options : Options) (u : String)
    (hu : options.lookup "url" = some u) :
    (hasKey options "html" || hasKey options "url") = true := by
  have hku : hasKey options "url" = true := by
    unfold hasKey
    rw [hu]
    rfl
  simp [hku]

theorem get_snd_of_ok (c : UrlboxClient) (validUrl : String → Bool)
    (options options1 : Options) (to_string : Bool)
    (ht : (hasKey options "html" || hasKey options "url") = true)
    (hval : validateUrlOpt validUrl options = .ok options1) :
    (c.get validUrl options to_string).2 =
      setKey options1 "format" ((options1.lookup "format").getD "png") := by
  rw [get_eq c validUrl options to_string ht, hval]
  cases to_string with
  | false => cases c.api_secret <;> rfl
  | true => rfl

theorem get_of_validate_error (c : UrlboxClient) (validUrl : String → Bool)
    (options o : Options) (to_string : Bool) (e : UrlboxError)
    (ht : (hasKey options "html" || hasKey options "url") = true)
    (hval : validateUrlOpt validUrl options = .error (e, o)) :
    c.get validUrl options to_string = (.error e, o) := by
  rw [get_eq c validUrl options to_string ht, hval]

theorem head_snd_of_ok (c : UrlboxClient) (validUrl : String → Bool)
    (options options1 : Options)
    (ht : (hasKey options "html" || hasKey options "url") = true)
    (hval : validateUrlOpt validUrl options = .ok options1) :
    (c.head validUrl options).2 =
      setKey options1 "format" ((options1.lookup "format").getD "png") := by
  rw [head_eq c validUrl options ht, hval]

theorem head_of_validate_error (c : UrlboxClient) (validUrl : String → Bool)
    (options o : Options) (e : UrlboxError)
    (ht : (hasKey options "html" || hasKey options "url") = true)
    (hval : validateUrlOpt validUrl options = .error (e, o)) :
    c.head validUrl options = (.error e, o) := by
  rw [head_eq c validUrl options ht, hval]

theorem post_ok_eq (c : UrlboxClient) (validUrl : String → Bool)
    (options options1 : Options) (s : String)
    (ht : (hasKey options "html" || hasKey options "url") = true)
    (hw : hasKey options "webhook_url" = true)
    (hsec : c.api_secret = some s)
    (hval : validateUrlOpt validUrl options = .ok options1) :
    c.post validUrl options =
      (.ok ⟨.post, c.base_api_url ++ POST_END_POINT,
        [("Content-Type", "application/json"),
          ("Authorization", "Bearer " ++ s)],
        some (setKey options1 "format" ((options1.lookup "format").getD "png"))⟩,
        setKey options1 "format" ((options1.lookup "format").getD "png")) := by
  rw [post_eq c validUrl options ht hw, hsec, hval]

theorem post_of_validate_error (c : UrlboxClient) (validUrl : String → Bool)
    (options o : Options) (s : String) (e : UrlboxError)
    (ht : (hasKey options "html" || hasKey options "url") = true)
    (hw : hasKey options "webhook_url" = true)
    (hsec : c.api_secret = some s)
    (hval : validateUrlOpt validUrl options = .error (e, o)) :
    c.post validUrl options = (.error e, o) := by
  rw [post_eq c validUrl options ht hw, hsec, hval]

theorem get_snd_lookup_url (c : UrlboxClient) (validUrl : String → Bool)
    (options : Options) (u : String) (to_string : Bool)
    (hu : options.lookup "url" = some u) :
    (c.get validUrl options to_string).2.lookup "url" =
      some (_prepend_schema (pyStrip u)) := by
  have ht := hasTarget_of_url options u hu
  cases hvv : validUrl (_prepend_schema (pyStrip u)) with
  | true =>
    rw [get_snd_of_ok c validUrl options _ to_string ht
      (validateUrlOpt_some_valid validUrl options u hu hvv)]
    rw [lookup_setKey_ne _ _ _ _ (by decide), lookup_setKey_self]
  | false =>
    rw [get_of_validate_error c validUrl options _ to_string _ ht
      (validateUrlOpt_some_invalid validUrl options u hu hvv)]
    exact lookup_setKey_self options "url" (_prepend_schema (pyStrip u))

theorem head_snd_lookup_url (c : UrlboxClient) (validUrl : String → Bool)
    (options : Options) (u : String)
    (hu : options.lookup "url" = some u) :
    (c.head validUrl options).2.lookup "url" =
      some (_prepend_schema (pyStrip u)) := by
  have ht := hasTarget_of_url options u hu
  cases hvv : validUrl (_prepend_schema (pyStrip u)) with
  | true =>
    rw [head_snd_of_ok c validUrl options _ ht
      (validateUrlOpt_some_valid validUrl options u hu hvv)]
    rw [lookup_setKey_ne _ _ _ _ (by decide), lookup_setKey_self]
  | false =>
    rw [head_of_validate_error c validUrl options _ _ ht
      (validateUrlOpt_some_invalid validUrl options u hu hvv)]
    exact lookup_setKey_self options "url" (_prepend_schema (pyStrip u))

theorem post_snd_lookup_url (c : UrlboxClient) (validUrl : String → Bool)
    (options : Options) (u s : String)
    (hu : options.lookup "url" = some u)
    (hw : hasKey options "webhook_url" = true)
    (hsec : c.api_secret = some s) :
    (c.post validUrl options).2.lookup "url" =
      some (_prepend_schema (pyStrip u)) := by
  have ht := hasTarget_of_url options u hu
  cases hvv : validUrl (_prepend_schema (pyStrip u)) with
  | true =>
    rw [post_ok_eq c validUrl options _ s ht hw hsec
      (validateUrlOpt_some_valid validUrl options u hu hvv)]
    rw [lookup_setKey_ne _ _ _ _ (by decide), lookup_setKey_self]
  | false =>
    rw [post_of_validate_error c validUrl options _ s _ ht hw hsec
      (validateUrlOpt_some_invalid validUrl options u hu hvv)]
    exact lookup_setKey_self options "url" (_prepend_schema (pyStrip u))

/-! Claim theorems. -/

/-- C2: for every options mapping that contains neither the key `url` nor the
key `html`, each of `get`, `head` and `post` fails with `MissingTargetError`
and no network request is made (in the model: the result is an error, so no
`Request` is produced, and the options are untouched). -/
theorem missing_target_error (c : UrlboxClient) (validUrl : String → Bool)
    (options : Options) (to_string : Bool)
    (hu : hasKey options "url" = false) (hh : hasKey options "html" = false) :
    c.get validUrl options to_string = (.error .missingTarget, options) ∧
    c.head validUrl options = (.error .missingTarget, options) ∧
    c.post validUrl options = (.error .missingTarget, options) := by
  have hc : (!hasKey options "html" && !hasKey options "url") = true := by
    rw [hu, hh]
    rfl
  refine ⟨?_, ?_, ?_⟩ <;>
    simp [UrlboxClient.get, UrlboxClient.head, UrlboxClient.post, hc]

/-- Witness for C2 at a mapping with neither `url` nor `html`. -/
theorem missing_target_error_witness :
    (UrlboxClient.make "K").get (fun _ => true) [("width", "300")] false =
      (.error .missingTarget, [("width", "300")]) ∧
    (UrlboxClient.make "K").head (fun _ => true) [("width", "300")] =
      (.error .missingTarget, [("width", "300")]) ∧
    (UrlboxClient.make "K").post (fun _ => true) [("width", "300")] =
      (.error .missingTarget, [("width", "300")]) :=
  missing_target_error (UrlboxClient.make "K") (fun _ => true)
    [("width", "300")] false (by decide) (by decide)

/-- C10: in `post` the webhook check runs before URL normalization: for every
options mapping with a target but without `webhook_url`, `post` fails with the
missing-webhook error — even for a malformed `url` (no validity hypothesis is
needed, `validUrl` is arbitrary) — and the returned options mapping is exactly
the caller's, neither trimmed nor scheme-prefixed. -/
theorem post_webhook_before_normalization (c : UrlboxClient)
    (validUrl : String → Bool) (options : Options)
    (ht : (hasKey options "html" || hasKey options "url") = true)
    (hw : hasKey options "webhook_url" = false) :
    c.post validUrl options = (.error .missingWebhook, options) := by
  have hc := target_cond options ht
  simp [UrlboxClient.post, hc, hw]

/-- Witness for C10 at a malformed, untrimmed `url` and no `webhook_url`. -/
theorem post_webhook_before_normalization_witness :
    (UrlboxClient.make "K" (some "S")).post (fun _ => false)
      [("url", " not a url ")] =
      (.error .missingWebhook, [("url", " not a url ")]) :=
  post_webhook_before_normalization (UrlboxClient.make "K" (some "S"))
    (fun _ => false) [("url", " not a url ")] (by decide) (by decide)

/-- C8: for every options mapping whose `url` value fails validation after
normalization, `get` fails with `InvalidUrlError` carrying the normalized URL,
and no request is produced (fail fast: the result is an error for every
`to_string`, so the model never reaches a `Request`). -/
theorem invalid_url_error (c : UrlboxClient) (validUrl : String → Bool)
    (options : Options) (u : String) (to_string : Bool)
    (hu : options.lookup "url" = some u)
    (hinv : validUrl (_prepend_schema (pyStrip u)) = false) :
    (c.get validUrl options to_string).1 =
      .error (.invalidUrl (_prepend_schema (pyStrip u))) ∧
    ∀ out, (c.get validUrl options to_string).1 ≠ .ok out := by
  have hku : hasKey options "url" = true := by
    unfold hasKey
    rw [hu]
    rfl
  have ht : (hasKey options "html" || hasKey options "url") = true := by
    simp [hku]
  have hv := validateUrlOpt_some validUrl options u hu
  rw [hinv] at hv
  rw [get_eq c validUrl options to_string ht, hv]
  simp

/-- Witness for C8 at the malformed input `"not a url"`. -/
theorem invalid_url_error_witness :
    ((UrlboxClient.make "K").get (fun _ => false) [("url", "not a url")]
        false).1 =
      .error (.invalidUrl (_prepend_schema (pyStrip "not a url"))) ∧
    ∀ out, ((UrlboxClient.make "K").get (fun _ => false)
      [("url", "not a url")] false).1 ≠ .ok out :=
  invalid_url_error (UrlboxClient.make "K") (fun _ => false)
    [("url", "not a url")] "not a url" false (by decide) (by decide)

/-- C3: with a valid target and `to_string = true`, `get` makes no network
request (it returns a URL string) and returns the unauthenticated URL
`{base_api_url}{api_key}/{format}?{query}` for every client, with or without a
secret; and on the concrete client `K` (no secret) with options
`{url: "http://example.com", format: "png"}` it returns exactly
`"https://api.urlbox.io/v1/K/png?url=http%3A%2F%2Fexample.com&format=png"`,
the query in insertion order. -/
theorem get_to_string_unauthenticated :
    (∀ (c : UrlboxClient) (validUrl : String → Bool)
      (options options1 : Options) (format q : String),
      (hasKey options "html" || hasKey options "url") = true →
      validateUrlOpt validUrl options = .ok options1 →
      format = (options1.lookup "format").getD "png" →
      q = urlencode (setKey options1 "format" format) →
      c.get validUrl options true =
        (.ok (.urlString
          (c.base_api_url ++ c.api_key ++ "/" ++ format ++ "?" ++ q)),
          setKey options1 "format" format)) ∧
    (UrlboxClient.make "K").get (fun _ => true)
      [("url", "http://example.com"), ("format", "png")] true =
      (.ok (.urlString
        "https://api.urlbox.io/v1/K/png?url=http%3A%2F%2Fexample.com&format=png"),
        [("url", "http://example.com"), ("format", "png")]) := by
  constructor
  · intro c validUrl options options1 format q ht hval hf hq
    subst hf hq
    rw [get_eq c validUrl options true ht, hval]
    rfl
  · decide

/-- Witness for C3: the general part applied to a client that does have a
secret, showing the returned string is still the unauthenticated form. -/
theorem get_to_string_unauthenticated_witness :
    (UrlboxClient.make "K2" (some "SEC")).get (fun _ => true)
      [("url", "http://example.com"), ("format", "png")] true =
      (.ok (.urlString ("https://api.urlbox.io/v1/" ++ "K2" ++ "/" ++ "png" ++
        "?" ++ "url=http%3A%2F%2Fexample.com&format=png")),
        [("url", "http://example.com"), ("format", "png")]) :=
  get_to_string_unauthenticated.1 (UrlboxClient.make "K2" (some "SEC"))
    (fun _ => true) [("url", "http://example.com"), ("format", "png")]
    [("url", "http://example.com"), ("format", "png")] "png"
    "url=http%3A%2F%2Fexample.com&format=png"
    (by decide) (by decide) (by decide) (by decide)

/-- C4: with a valid target, `head` issues an unauthenticated HEAD request to
`{base_api_url}{api_key}/{format}?{query}` — the URL has no token segment —
and the result is identical for every value of the client's `api_secret`. -/
theorem head_always_unauthenticated (c : UrlboxClient)
    (validUrl : String → Bool) (options options1 : Options) (format q : String)
    (ht : (hasKey options "html" || hasKey options "url") = true)
    (hval : validateUrlOpt validUrl options = .ok options1)
    (hf : format = (options1.lookup "format").getD "png")
    (hq : q = urlencode (setKey options1 "format" format)) :
    c.head validUrl options =
      (.ok ⟨.head, c.base_api_url ++ c.api_key ++ "/" ++ format ++ "?" ++ q,
        [], none⟩, setKey options1 "format" format) ∧
    ∀ sec : Option String,
      ({ c with api_secret := sec } : UrlboxClient).head validUrl options =
        c.head validUrl options := by
  constructor
  · subst hf hq
    rw [head_eq c validUrl options ht, hval]
  · intro sec
    rw [head_eq _ validUrl options ht, head_eq c validUrl options ht]

/-- Witness for C4 at a client with a configured secret. -/
theorem head_always_unauthenticated_witness :
    (UrlboxClient.make "K" (some "S")).head (fun _ => true)
      [("url", "http://example.com")] =
      (.ok ⟨.head, "https://api.urlbox.io/v1/" ++ "K" ++ "/" ++ "png" ++ "?" ++
        "url=http%3A%2F%2Fexample.com&format=png", [], none⟩,
        [("url", "http://example.com"), ("format", "png")]) ∧
    ∀ sec : Option String,
      ({ UrlboxClient.make "K" (some "S") with api_secret := sec } :
          UrlboxClient).head (fun _ => true) [("url", "http://example.com")] =
        (UrlboxClient.make "K" (some "S")).head (fun _ => true)
          [("url", "http://example.com")] :=
  head_always_unauthenticated (UrlboxClient.make "K" (some "S"))
    (fun _ => true) [("url", "http://example.com")]
    [("url", "http://example.com")] "png"
    "url=http%3A%2F%2Fexample.com&format=png"
    (by decide) (by decide) (by decide) (by decide)

/-- C1: with a valid target, a configured secret and `to_string = false`,
`get` issues a GET to `{base_api_url}{api_key}/{token}/{format}?{query}` where
the token is the lowercase hex digest of the HMAC-SHA1 whose key is the UTF-8
bytes of the secret and whose message is the UTF-8 bytes of the
percent-encoded query; and the token is deterministic — equal secrets and
equal encoded queries always give the equal token. -/
theorem get_authenticated_hmac_token (c : UrlboxClient)
    (validUrl : String → Bool) (options options1 : Options)
    (s format q : String)
    (hsec : c.api_secret = some s)
    (ht : (hasKey options "html" || hasKey options "url") = true)
    (hval : validateUrlOpt validUrl options = .ok options1)
    (hf : format = (options1.lookup "format").getD "png")
    (hq : q = urlencode (setKey options1 "format" format)) :
    c.get validUrl options false =
      (.ok (.request ⟨.get,
        c.base_api_url ++ c.api_key ++ "/" ++
          bytesToHex (hmacSha1 (strBytes s) (strBytes q)) ++ "/" ++ format ++
          "?" ++ q, [], none⟩), setKey options1 "format" format) ∧
    ∀ s' q' : String, s' = s → q' = q →
      _token s' q' = bytesToHex (hmacSha1 (strBytes s) (strBytes q)) := by
  constructor
  · subst hf hq
    rw [get_eq c validUrl options false ht, hval]
    simp only [hsec]
    rw [_token_eq_hmac]
    rfl
  · intro s' q' hs hq'
    rw [hs, hq']
    exact _token_eq_hmac s q

/-- Witness for C1 at client `K` with secret `S` and target
`http://example.com`. -/
theorem get_authenticated_hmac_token_witness :
    (UrlboxClient.make "K" (some "S")).get (fun _ => true)
      [("url", "http://example.com")] false =
      (.ok (.request ⟨.get,
        "https://api.urlbox.io/v1/" ++ "K" ++ "/" ++
          bytesToHex (hmacSha1 (strBytes "S")
            (strBytes "url=http%3A%2F%2Fexample.com&format=png")) ++ "/" ++
          "png" ++ "?" ++ "url=http%3A%2F%2Fexample.com&format=png", [],
          none⟩), [("url", "http://example.com"), ("format", "png")]) ∧
    ∀ s' q' : String, s' = "S" → q' = "url=http%3A%2F%2Fexample.com&format=png" →
      _token s' q' = bytesToHex (hmacSha1 (strBytes "S")
        (strBytes "url=http%3A%2F%2Fexample.com&format=png")) :=
  get_authenticated_hmac_token (UrlboxClient.make "K" (some "S"))
    (fun _ => true) [("url", "http://example.com")]
    [("url", "http://example.com")] "S" "png"
    "url=http%3A%2F%2Fexample.com&format=png"
    rfl (by decide) (by decide) (by decide) (by decide)

/-- C9: whenever `get`, `head` or `post` completes its validation phase (the
result is `.ok`), the final options mapping holds a concrete `format`: the
caller's value when the key was present, the canonical default `"png"` when it
was absent. -/
theorem format_defaulted (c : UrlboxClient) (validUrl : String → Bool)
    (options : Options) (to_string : Bool) :
    (∀ out o1, c.get validUrl options to_string = (.ok out, o1) →
      o1.lookup "format" = some ((options.lookup "format").getD "png")) ∧
    (∀ r o1, c.head validUrl options = (.ok r, o1) →
      o1.lookup "format" = some ((options.lookup "format").getD "png")) ∧
    (∀ r o1, c.post validUrl options = (.ok r, o1) →
      o1.lookup "format" = some ((options.lookup "format").getD "png")) := by
  have key : ∀ options1 o1 : Options,
      validateUrlOpt validUrl options = .ok options1 →
      setKey options1 "format" ((options1.lookup "format").getD "png") = o1 →
      o1.lookup "format" = some ((options.lookup "format").getD "png") := by
    intro options1 o1 hval ho1
    rw [← ho1, lookup_setKey_self,
      validateUrlOpt_ok_lookup validUrl options options1 "format" hval
        (by decide)]
  by_cases hcond : (!hasKey options "html" && !hasKey options "url") = true
  · refine ⟨?_, ?_, ?_⟩ <;> intro r o1 hres <;>
      simp [UrlboxClient.get, UrlboxClient.head, UrlboxClient.post, hcond]
        at hres
  · have hcf : (!hasKey options "html" && !hasKey options "url") = false := by
      revert hcond
      cases !hasKey options "html" && !hasKey options "url" <;> simp
    have ht := hasTarget_of_not_cond options hcf
    cases hval : validateUrlOpt validUrl options with
    | error eo =>
      obtain ⟨e, o⟩ := eo
      refine ⟨?_, ?_, ?_⟩ <;> intro r o1 hres
      · rw [get_of_validate_error c validUrl options o to_string e ht hval]
          at hres
        simp at hres
      · rw [head_of_validate_error c validUrl options o e ht hval] at hres
        simp at hres
      · by_cases hw : hasKey options "webhook_url" = true
        · cases hsec : c.api_secret with
          | none =>
            rw [post_eq c validUrl options ht hw, hsec] at hres
            simp at hres
          | some s =>
            rw [post_of_validate_error c validUrl options o s e ht hw hsec
              hval] at hres
            simp at hres
        · have hw' : hasKey options "webhook_url" = false := by
            revert hw
            cases hasKey options "webhook_url" <;> simp
          simp [UrlboxClient.post, target_cond options ht, hw'] at hres
    | ok options1 =>
      refine ⟨?_, ?_, ?_⟩ <;> intro r o1 hres
      · refine key options1 o1 hval ?_
        rw [← get_snd_of_ok c validUrl options options1 to_string ht hval,
          hres]
      · refine key options1 o1 hval ?_
        rw [← head_snd_of_ok c validUrl options options1 ht hval, hres]
      · by_cases hw : hasKey options "webhook_url" = true
        · cases hsec : c.api_secret with
          | none =>
            rw [post_eq c validUrl options ht hw, hsec] at hres
            simp at hres
          | some s =>
            refine key options1 o1 hval ?_
            have hp := post_ok_eq c validUrl options options1 s ht hw hsec
              hval
            rw [hp] at hres
            exact congrArg Prod.snd hres
        · have hw' : hasKey options "webhook_url" = false := by
            revert hw
            cases hasKey options "webhook_url" <;> simp
          simp [UrlboxClient.post, target_cond options ht, hw'] at hres

/-- Witness for C9: `get` keeps a caller-supplied `format` (`jpg`); `head`
defaults a missing `format` to `png`. -/
theorem format_defaulted_witness :
    ([("url", "http://example.com"), ("format", "jpg")] : Options).lookup
      "format" = some ((([("url", "http://example.com"), ("format", "jpg")] :
        Options).lookup "format").getD "png") ∧
    ([("url", "http://example.com"), ("format", "png")] : Options).lookup
      "format" = some ((([("url", "http://example.com")] : Options).lookup
        "format").getD "png") := by
  constructor
  · exact (format_defaulted (UrlboxClient.make "K") (fun _ => true)
      [("url", "http://example.com"), ("format", "jpg")] true).1
      (.urlString
        "https://api.urlbox.io/v1/K/jpg?url=http%3A%2F%2Fexample.com&format=jpg")
      [("url", "http://example.com"), ("format", "jpg")] (by decide)
  · exact (format_defaulted (UrlboxClient.make "K") (fun _ => true)
      [("url", "http://example.com")] true).2.1
      ⟨.head, "https://api.urlbox.io/v1/K/png?url=http%3A%2F%2Fexample.com&format=png",
        [], none⟩
      [("url", "http://example.com"), ("format", "png")] (by decide)

/-- C5 counterexample: the empty options mapping lacks `webhook_url`, yet
`post` fails with the missing-target error, not the missing-webhook error, so
the claim's unconditional first part is false as stated (likewise a client
without a secret gets the missing-target error here, not the
missing-credential error). -/
theorem post_missing_webhook_cex :
    (UrlboxClient.make "K" (some "S")).post (fun _ => true) [] =
      (.error .missingTarget, []) ∧
    UrlboxError.missingTarget ≠ UrlboxError.missingWebhook ∧
    (UrlboxClient.make "K").post (fun _ => true) [] =
      (.error .missingTarget, []) ∧
    UrlboxError.missingTarget ≠ UrlboxError.missingCredential := by
  decide

/-- C5 amended: for options that do contain a target, `post` without
`webhook_url` fails with `MissingWebhookError`; with a webhook but no
configured secret it fails with `MissingCredentialError`; with target, webhook
and secret all present (and a passing `url` validation) it issues exactly one
POST to `{base_api_url}render` with the `Content-Type: application/json` and
`Authorization: Bearer {api_secret}` headers and the options mapping as JSON
body. -/
theorem post_errors_and_request (c : UrlboxClient) (validUrl : String → Bool)
    (options : Options) :
    ((hasKey options "html" || hasKey options "url") = true →
      hasKey options "webhook_url" = false →
      c.post validUrl options = (.error .missingWebhook, options)) ∧
    ((hasKey options "html" || hasKey options "url") = true →
      hasKey options "webhook_url" = true → c.api_secret = none →
      c.post validUrl options = (.error .missingCredential, options)) ∧
    (∀ (s : String) (options1 : Options) (format : String),
      (hasKey options "html" || hasKey options "url") = true →
      hasKey options "webhook_url" = true → c.api_secret = some s →
      validateUrlOpt validUrl options = .ok options1 →
      format = (options1.lookup "format").getD "png" →
      c.post validUrl options =
        (.ok ⟨.post, c.base_api_url ++ POST_END_POINT,
          [("Content-Type", "application/json"),
            ("Authorization", "Bearer " ++ s)],
          some (setKey options1 "format" format)⟩,
          setKey options1 "format" format)) := by
  refine ⟨?_, ?_, ?_⟩
  · intro ht hw
    simp [UrlboxClient.post, target_cond options ht, hw]
  · intro ht hw hsec
    rw [post_eq c validUrl options ht hw, hsec]
  · intro s options1 format ht hw hsec hval hf
    subst hf
    exact post_ok_eq c validUrl options options1 s ht hw hsec hval

/-- Witness for C5 (amended) covering all three branches on concrete inputs. -/
theorem post_errors_and_request_witness :
    (UrlboxClient.make "K" (some "S")).post (fun _ => true)
      [("url", "http://example.com")] =
      (.error .missingWebhook, [("url", "http://example.com")]) ∧
    (UrlboxClient.make "K").post (fun _ => true)
      [("url", "http://example.com"), ("webhook_url", "http://w")] =
      (.error .missingCredential,
        [("url", "http://example.com"), ("webhook_url", "http://w")]) ∧
    (UrlboxClient.make "K" (some "S")).post (fun _ => true)
      [("url", "http://example.com"), ("webhook_url", "http://w")] =
      (.ok ⟨.post, "https://api.urlbox.io/v1/" ++ "render",
        [("Content-Type", "application/json"),
          ("Authorization", "Bearer " ++ "S")],
        some [("url", "http://example.com"), ("webhook_url", "http://w"),
          ("format", "png")]⟩,
        [("url", "http://example.com"), ("webhook_url", "http://w"),
          ("format", "png")]) := by
  refine ⟨?_, ?_, ?_⟩
  · exact (post_errors_and_request (UrlboxClient.make "K" (some "S"))
      (fun _ => true) [("url", "http://example.com")]).1
      (by decide) (by decide)
  · exact (post_errors_and_request (UrlboxClient.make "K")
      (fun _ => true)
      [("url", "http://example.com"), ("webhook_url", "http://w")]).2.1
      (by decide) (by decide) rfl
  · exact (post_errors_and_request (UrlboxClient.make "K" (some "S"))
      (fun _ => true)
      [("url", "http://example.com"), ("webhook_url", "http://w")]).2.2
      "S" [("url", "http://example.com"), ("webhook_url", "http://w")] "png"
      (by decide) (by decide) rfl (by decide) (by decide)

/-- C6 counterexample: with `url` present but `webhook_url` missing, `post`
raises before its normalization step, so the `url` value is left exactly as
supplied — ` example.com ` rather than the trimmed, scheme-prefixed
`http://example.com` the claim promises for all three operations. -/
theorem normalize_post_skipped_cex :
    (UrlboxClient.make "K" (some "S")).post (fun _ => true)
      [("url", " example.com ")] =
      (.error .missingWebhook, [("url", " example.com ")]) ∧
    (" example.com " : String) ≠ "http://example.com" := by
  decide

/-- C6 amended: `get` and `head` always store the normalized target — the
supplied value trimmed of surrounding whitespace, with `http://` prepended
exactly when the trimmed value does not start with `http` — and `post` does so
once its webhook and credential checks pass; in particular `example.com`
becomes `http://example.com`. -/
theorem url_normalization (c : UrlboxClient) (validUrl : String → Bool)
    (options : Options) (u : String) (to_string : Bool)
    (hu : options.lookup "url" = some u) :
    (c.get validUrl options to_string).2.lookup "url" =
      some (_prepend_schema (pyStrip u)) ∧
    (c.head validUrl options).2.lookup "url" =
      some (_prepend_schema (pyStrip u)) ∧
    (∀ s : String, hasKey options "webhook_url" = true →
      c.api_secret = some s →
      (c.post validUrl options).2.lookup "url" =
        some (_prepend_schema (pyStrip u))) ∧
    (_prepend_schema (pyStrip u) =
      if pyStartsWith (pyStrip u) "http" then pyStrip u
      else "http://" ++ pyStrip u) ∧
    _prepend_schema (pyStrip "example.com") = "http://example.com" := by
  refine ⟨get_snd_lookup_url c validUrl options u to_string hu,
    head_snd_lookup_url c validUrl options u hu, ?_, ?_, by decide⟩
  · intro s hw hsec
    exact post_snd_lookup_url c validUrl options u s hu hw hsec
  · cases hsw : pyStartsWith (pyStrip u) "http" <;>
      simp [_prepend_schema, hsw]

/-- Witness for C6 (amended) at the untrimmed, schemeless value
`"  example.com"`. -/
theorem url_normalization_witness :
    ((UrlboxClient.make "K" (some "S")).get (fun _ => true)
      [("url", "  example.com"), ("webhook_url", "http://w")] false).2.lookup
      "url" = some (_prepend_schema (pyStrip "  example.com")) ∧
    ((UrlboxClient.make "K" (some "S")).head (fun _ => true)
      [("url", "  example.com"), ("webhook_url", "http://w")]).2.lookup
      "url" = some (_prepend_schema (pyStrip "  example.com")) ∧
    ((UrlboxClient.make "K" (some "S")).post (fun _ => true)
      [("url", "  example.com"), ("webhook_url", "http://w")]).2.lookup
      "url" = some (_prepend_schema (pyStrip "  example.com")) ∧
    (_prepend_schema (pyStrip "  example.com") =
      if pyStartsWith (pyStrip "  example.com") "http" then
        pyStrip "  example.com"
      else "http://" ++ pyStrip "  example.com") ∧
    _prepend_schema (pyStrip "example.com") = "http://example.com" := by
  obtain ⟨h1, h2, h3, h4, h5⟩ := url_normalization
    (UrlboxClient.make "K" (some "S")) (fun _ => true)
    [("url", "  example.com"), ("webhook_url", "http://w")] "  example.com"
    false (by decide)
  exact ⟨h1, h2, h3 "S" (by decide) rfl, h4, h5⟩

/-- C7 counterexample: a `url` value that starts with `http` but carries
trailing whitespace is still trimmed, so the stored value differs from the
supplied one — normalization is not a no-op on every value starting with
`http`. -/
theorem normalize_noop_trim_cex :
    pyStartsWith "http://example.com " "http" = true ∧
    ((UrlboxClient.make "K").get (fun _ => true)
      [("url", "http://example.com ")] false).2.lookup "url" =
      some "http://example.com" ∧
    ("http://example.com" : String) ≠ "http://example.com " := by
  decide

/-- C7 amended: for every `url` value whose trimmed form starts with `http`,
the scheme-prepending step is a no-op (the stored value is the trimmed
supplied value); when the supplied value additionally has no surrounding
whitespace, the value stored back into `options` equals the value supplied by
the caller. -/
theorem normalize_noop_on_http (c : UrlboxClient) (validUrl : String → Bool)
    (options : Options) (u : String) (to_string : Bool)
    (hu : options.lookup "url" = some u)
    (hhttp : pyStartsWith (pyStrip u) "http" = true) :
    _prepend_schema (pyStrip u) = pyStrip u ∧
    (pyStrip u = u →
      (c.get validUrl options to_string).2.lookup "url" = some u) := by
  have hps : _prepend_schema (pyStrip u) = pyStrip u := by
    unfold _prepend_schema
    rw [hhttp]
    rfl
  refine ⟨hps, ?_⟩
  intro he
  rw [get_snd_lookup_url c validUrl options u to_string hu, hps, he]

/-- Witness for C7 (amended) at the whitespace-free value
`"http://example.com"`. -/
theorem normalize_noop_on_http_witness :
    _prepend_schema (pyStrip "http://example.com") =
      pyStrip "http://example.com" ∧
    ((UrlboxClient.make "K").get (fun _ => true)
      [("url", "http://example.com")] false).2.lookup "url" =
      some "http://example.com" := by
  obtain ⟨h1, h2⟩ := normalize_noop_on_http (UrlboxClient.make "K")
    (fun _ => true) [("url", "http://example.com")] "http://example.com"
    false (by decide) (by decide)
  exact ⟨h1, h2 (by decide)⟩

end Urlbox
